import Mathlib

/-!
Verification of the memory-statistics reader (src/sources/memquery.c).

The single routine `getAvailableMemory` opens /proc/meminfo, scans it line by
line with an if/else-if chain of sscanf patterns, applies an early-exit
condition once the fields of interest are resolved, validates the two
mandatory fields, and derives the optional huge-page quantity.

The embedding below models a source as a list of lines (each a list of
characters), the sscanf conversions as explicit parsers, the scanning loop as
a structurally recursive function that also reports the consumed prefix and
whether it ended by break, and the whole call at two levels: a pointer-level
model `getAvailableMemoryC` (which pointers are null, prior cell contents,
whether fopen succeeds) and the specification-level contract `readMemoryInfo`
returning a tagged success/failure outcome.
-/

namespace MemQuery

/-- One line of the statistics source, as the list of its characters. -/
abbrev Line := List Char

/-- Whitespace as recognized by sscanf in the C locale: space, tab, newline,
vertical tab, form feed, carriage return. -/
def isSpaceChar (c : Char) : Bool :=
  c == ' ' || c == '\t' || c == '\n' || c == '\r' ||
  c == Char.ofNat 11 || c == Char.ofNat 12

/-- Drop leading whitespace, as the whitespace directives of sscanf do. -/
def skipWs : List Char → List Char
  | [] => []
  | c :: cs => if isSpaceChar c then skipWs cs else c :: cs

/-- Numeric value of a digit run, most significant digit first. -/
def digitsToNat (ds : List Char) : Nat :=
  ds.foldl (fun a c => a * 10 + (c.toNat - 48)) 0

/-- Parse a nonempty run of decimal digits at the head of the input. -/
def parseNat (s : List Char) : Option Nat :=
  match s.takeWhile Char.isDigit with
  | [] => none
  | ds => some (digitsToNat ds)

/-- Semantics of the %ld conversion of sscanf: skip whitespace, then an
optional sign followed by at least one decimal digit; anything after the
digits is left unread. -/
def parseLong (s : List Char) : Option Int :=
  match skipWs s with
  | '-' :: r => (parseNat r).map (fun n => -(n : Int))
  | '+' :: r => (parseNat r).map (fun n => (n : Int))
  | r => (parseNat r).map (fun n => (n : Int))

/-- Match a literal character sequence at the head of the input and return
the remainder (the literal directives of an sscanf format). -/
def dropLit : List Char → List Char → Option (List Char)
  | [], s => some s
  | _ :: _, [] => none
  | c :: cs, x :: xs => if x = c then dropLit cs xs else none

/-- Outcome of sscanf(line, "<label> %ld ...", &value) == 1: the label must
match literally, then one long is converted. A trailing " kB" in the format
is irrelevant to whether the return value is 1, since the value has already
been assigned when it is examined. -/
def scanPattern (label : List Char) (s : List Char) : Option Int :=
  (dropLit label s).bind parseLong

def memAvailableLabel : List Char := "MemAvailable:".data

def swapFreeLabel : List Char := "SwapFree:".data

def hugeTotalLabel : List Char := "HugePages_Total:".data

def hugeFreeLabel : List Char := "HugePages_Free:".data

def hugeSizeLabel : List Char := "Hugepagesize:".data

/-- The five recognized labels, in the priority order of the else-if chain. -/
def labelOf : Fin 5 → List Char
  | ⟨0, _⟩ => memAvailableLabel
  | ⟨1, _⟩ => swapFreeLabel
  | ⟨2, _⟩ => hugeTotalLabel
  | ⟨3, _⟩ => hugeFreeLabel
  | ⟨_ + 4, _⟩ => hugeSizeLabel

/-- The scan state of getAvailableMemory: the two mandatory output cells and
the three huge-page locals, each using -1 as the unset sentinel. -/
structure ScanState where
  availableMemoryKb : Int
  freeSwapKb : Int
  hugeTlbTotalPages : Int
  hugeTlbFreePages : Int
  hugeTlbPageSize : Int
deriving DecidableEq

/-- State at the top of the loop: lines 14-16 and 27-28 of the source. -/
def initialState : ScanState := ⟨-1, -1, -1, -1, -1⟩

/-- Processing of one line: the if/else-if chain of lines 35-45. -/
def processLine (l : Line) (st : ScanState) : ScanState :=
  match scanPattern memAvailableLabel l with
  | some v => { st with availableMemoryKb := v }
  | none =>
    match scanPattern swapFreeLabel l with
    | some v => { st with freeSwapKb := v }
    | none =>
      match scanPattern hugeTotalLabel l with
      | some v => { st with hugeTlbTotalPages := v }
      | none =>
        match scanPattern hugeFreeLabel l with
        | some v => { st with hugeTlbFreePages := v }
        | none =>
          match scanPattern hugeSizeLabel l with
          | some v => { st with hugeTlbPageSize := v }
          | none => st

/-- Both mandatory fields hold something other than the unset sentinel. -/
def mandatoryResolved (st : ScanState) : Prop :=
  st.availableMemoryKb ≠ -1 ∧ st.freeSwapKb ≠ -1

instance (st : ScanState) : Decidable (mandatoryResolved st) :=
  inferInstanceAs (Decidable (st.availableMemoryKb ≠ -1 ∧ st.freeSwapKb ≠ -1))

/-- All three huge-page fields hold something other than the unset sentinel. -/
def hugeResolved (st : ScanState) : Prop :=
  st.hugeTlbTotalPages ≠ -1 ∧ st.hugeTlbFreePages ≠ -1 ∧ st.hugeTlbPageSize ≠ -1

instance (st : ScanState) : Decidable (hugeResolved st) :=
  inferInstanceAs
    (Decidable (st.hugeTlbTotalPages ≠ -1 ∧ st.hugeTlbFreePages ≠ -1 ∧ st.hugeTlbPageSize ≠ -1))

/-- Early-exit condition checked after each line (lines 47-54): both
mandatory fields resolved, and huge pages either not requested (null third
pointer) or all three huge-page fields resolved. -/
def stopCond (wantHuge : Bool) (st : ScanState) : Prop :=
  mandatoryResolved st ∧ (wantHuge = false ∨ hugeResolved st)

instance (w : Bool) (st : ScanState) : Decidable (stopCond w st) :=
  inferInstanceAs (Decidable (mandatoryResolved st ∧ (w = false ∨ hugeResolved st)))

/-- The while(fgets) loop of lines 33-55: returns the final state, the list
of lines consumed, and whether the loop ended by break (early exit). -/
def scanLoop (w : Bool) : List Line → ScanState → ScanState × List Line × Bool
  | [], st => (st, [], false)
  | l :: ls, st =>
    if stopCond w (processLine l st) then
      (processLine l st, [l], true)
    else
      ((scanLoop w ls (processLine l st)).1,
       l :: (scanLoop w ls (processLine l st)).2.1,
       (scanLoop w ls (processLine l st)).2.2)

/-- Content of the huge-page output cell at return on the success path: the
product of lines 64-70 when huge pages were requested, totalPages is positive
and the other two fields were resolved; the line-30 default of 0 otherwise. -/
def hugePagesValue (w : Bool) (st : ScanState) : Int :=
  if w = true ∧ 0 < st.hugeTlbTotalPages ∧
      st.hugeTlbFreePages ≠ -1 ∧ st.hugeTlbPageSize ≠ -1 then
    st.hugeTlbFreePages * st.hugeTlbPageSize
  else 0

/-- The two failure kinds of the routine. -/
inductive MemError where
  | SourceUnavailable
  | RequiredFieldMissing
deriving DecidableEq

/-- The result the routine produces on success. -/
structure MemoryReport where
  availableKb : Int
  freeSwapKb : Int
  hugePagesFreeKb : Int
deriving DecidableEq

/-- The call with both mandatory pointers non-null, in the contract shape the
specification gives it: wantHuge models a non-null hugePagesInfoKb pointer,
openOk models whether fopen succeeds, lines are the lines of the source. -/
def readMemoryInfo (wantHuge : Bool) (openOk : Bool) (lines : List Line) :
    Except MemError MemoryReport :=
  if openOk = false then
    Except.error MemError.SourceUnavailable
  else
    if (scanLoop wantHuge lines initialState).1.availableMemoryKb = -1 ∨
        (scanLoop wantHuge lines initialState).1.freeSwapKb = -1 then
      Except.error MemError.RequiredFieldMissing
    else
      Except.ok
        { availableKb := (scanLoop wantHuge lines initialState).1.availableMemoryKb
          freeSwapKb := (scanLoop wantHuge lines initialState).1.freeSwapKb
          hugePagesFreeKb := hugePagesValue wantHuge ((scanLoop wantHuge lines initialState).1) }

/-- Content of a pointed-to cell after the call: none when the pointer was
null, otherwise the held integer. -/
def cellVal (p : Bool) (v : Int) : Option Int := if p = true then some v else none

/-- Observable outcome of one call at the C level: return code, the contents
of the three pointed-to cells, whether the source was opened, and the lines
consumed from it. -/
structure CResult where
  ret : Nat
  availCell : Option Int
  swapCell : Option Int
  hugeCell : Option Int
  opened : Bool
  consumed : List Line
deriving DecidableEq

/-- Pointer-level model of int getAvailableMemory(long*, long*, long*): the
three Booleans say which pointers are non-null, the three Ints give the prior
contents of the pointed-to cells, openOk whether fopen succeeds. -/
def getAvailableMemoryC (availPtr swapPtr hugePtr : Bool)
    (initAvail initSwap initHuge : Int) (openOk : Bool) (lines : List Line) : CResult :=
  if availPtr = false ∨ swapPtr = false then
    { ret := 1, availCell := cellVal availPtr initAvail, swapCell := cellVal swapPtr initSwap,
      hugeCell := cellVal hugePtr initHuge, opened := false, consumed := [] }
  else if openOk = false then
    { ret := 1, availCell := cellVal availPtr initAvail, swapCell := cellVal swapPtr initSwap,
      hugeCell := cellVal hugePtr initHuge, opened := false, consumed := [] }
  else
    if (scanLoop hugePtr lines initialState).1.availableMemoryKb = -1 ∨
        (scanLoop hugePtr lines initialState).1.freeSwapKb = -1 then
      { ret := 1,
        availCell := some (scanLoop hugePtr lines initialState).1.availableMemoryKb,
        swapCell := some (scanLoop hugePtr lines initialState).1.freeSwapKb,
        hugeCell := cellVal hugePtr 0, opened := true,
        consumed := (scanLoop hugePtr lines initialState).2.1 }
    else
      { ret := 0,
        availCell := some (scanLoop hugePtr lines initialState).1.availableMemoryKb,
        swapCell := some (scanLoop hugePtr lines initialState).1.freeSwapKb,
        hugeCell := cellVal hugePtr (hugePagesValue hugePtr ((scanLoop hugePtr lines initialState).1)),
        opened := true,
        consumed := (scanLoop hugePtr lines initialState).2.1 }

/-- Convenience: the list of characters of a string literal. -/
def toLine (s : String) : Line := s.data

/-- Two character lists disagree at an index inside both: then no extension
of the one equals an extension of the other. -/
def listsClash (a b : List Char) : Prop :=
  ∃ k : Fin a.length, (k : Nat) < b.length ∧ a.get? (k : Nat) ≠ b.get? (k : Nat)

instance (a b : List Char) : Decidable (listsClash a b) :=
  inferInstanceAs
    (Decidable (∃ k : Fin a.length, (k : Nat) < b.length ∧ a.get? (k : Nat) ≠ b.get? (k : Nat)))

/-- A line matched by none of the five recognized patterns. -/
def unrecognizedLine (l : Line) : Prop :=
  ∀ i : Fin 5, scanPattern (labelOf i) l = none

instance (l : Line) : Decidable (unrecognizedLine l) :=
  inferInstanceAs (Decidable (∀ i : Fin 5, scanPattern (labelOf i) l = none))

/-- Value extracted by the last line of ls matching the given label, or the
default d when no line matches. -/
def lastVal (label : List Char) (ls : List Line) (d : Int) : Int :=
  ((ls.filterMap (scanPattern label)).getLast?).getD d

/-- Well-formed source with the mandatory lines out of order and an
unrecognized line between them. -/
def c1lines : List Line :=
  [toLine "SwapFree: 7 kB", toLine "Buffers:   999 kB", toLine "MemAvailable: 5 kB"]

/-- Source carrying a negative MemAvailable value. -/
def c2lines : List Line :=
  [toLine "MemAvailable: -5 kB", toLine "SwapFree: 3 kB"]

/-- Source whose later MemAvailable line carries the sentinel value -1 and so
un-resolves the field before SwapFree is seen. -/
def c4lines : List Line :=
  [toLine "MemAvailable: 5 kB", toLine "MemAvailable: -1 kB", toLine "SwapFree: 7 kB"]

/-- Mandatory fields first, then a sentinel-carrying MemAvailable line. -/
def c4linesNoHuge : List Line :=
  [toLine "MemAvailable: 5 kB", toLine "SwapFree: 7 kB", toLine "MemAvailable: -1 kB"]

/-- Same source with the three huge-page lines inserted before the
sentinel-carrying line: when huge pages are requested the scan now breaks
before reaching it. -/
def c4linesHuge : List Line :=
  [toLine "MemAvailable: 5 kB", toLine "SwapFree: 7 kB", toLine "HugePages_Total: 1",
   toLine "HugePages_Free: 1", toLine "Hugepagesize: 2048 kB", toLine "MemAvailable: -1 kB"]

/-- Minimal source resolving both mandatory fields. -/
def c4okLines : List Line :=
  [toLine "MemAvailable: 5 kB", toLine "SwapFree: 7 kB"]

/-- Source resolving both mandatory fields and all three huge-page fields. -/
def c3lines : List Line :=
  [toLine "MemAvailable: 5 kB", toLine "SwapFree: 7 kB", toLine "HugePages_Total: 10",
   toLine "HugePages_Free: 4", toLine "Hugepagesize: 2048 kB"]

/-- Prefix resolving both mandatory fields. -/
def c5pre : List Line :=
  [toLine "MemAvailable: 524288 kB", toLine "SwapFree: 131072 kB"]

/-- Deliberately malformed huge-page line placed after the mandatory lines. -/
def c5suf : List Line :=
  [toLine "Hugepagesize: garbage kB"]

/-- Huge-page output as the specification words it: the product exactly when
all three huge-page fields were resolved and totalPages is positive. -/
def hugeFormula (st : ScanState) : Int :=
  if st.hugeTlbTotalPages ≠ -1 ∧ st.hugeTlbFreePages ≠ -1 ∧
      st.hugeTlbPageSize ≠ -1 ∧ 0 < st.hugeTlbTotalPages then
    st.hugeTlbFreePages * st.hugeTlbPageSize
  else 0

example : scanPattern memAvailableLabel (toLine "MemAvailable:    524288 kB") = some 524288 := by decide

example : scanPattern memAvailableLabel (toLine "MemAvailable: -5 kB") = some (-5) := by decide

example : scanPattern memAvailableLabel (toLine "MemAvailable: abc kB") = none := by decide

example : scanPattern swapFreeLabel (toLine "MemAvailable: 3 kB") = none := by decide

example :
    readMemoryInfo true true
      [toLine "MemAvailable:    524288 kB", toLine "SwapFree:        131072 kB",
       toLine "HugePages_Total:      4", toLine "HugePages_Free:       2",
       toLine "Hugepagesize:      2048 kB"] =
    Except.ok ⟨524288, 131072, 4096⟩ := rfl

example :
    readMemoryInfo false true [toLine "MemAvailable: -5 kB", toLine "SwapFree: 3 kB"] =
    Except.ok ⟨-5, 3, 0⟩ := rfl

/-- Indexing an append below the length of the first part. -/
lemma get?_append_lt : ∀ (a b : List Char) (k : Nat), k < a.length →
    (a ++ b).get? k = a.get? k := by
  intro a
  induction a with
  | nil => intro b k h; exact absurd h (by simp)
  | cons c cs ih =>
    intro b k h
    cases k with
    | zero => rfl
    | succ n => exact ih b n (by simpa using h)

/-- Lists that clash at a common index have no common extension. -/
lemma clash_ne_append (a b : List Char) (h : listsClash a b) :
    ∀ r1 r2 : List Char, a ++ r1 ≠ b ++ r2 := by
  obtain ⟨k, hkb, hne⟩ := h
  intro r1 r2 heq
  have h1 : (a ++ r1).get? (k : Nat) = a.get? (k : Nat) := get?_append_lt a r1 _ k.isLt
  have h2 : (b ++ r2).get? (k : Nat) = b.get? (k : Nat) := get?_append_lt b r2 _ hkb
  rw [heq, h2] at h1
  exact hne h1.symm

/-- Successful literal matching decomposes the input as label ++ rest. -/
lemma dropLit_append : ∀ (label s r : List Char), dropLit label s = some r → s = label ++ r := by
  intro label
  induction label with
  | nil => intro s r h; cases h; rfl
  | cons c cs ih =>
    intro s r h
    cases s with
    | nil => exact absurd h (by simp [dropLit])
    | cons x xs =>
      unfold dropLit at h
      split at h
      · rename_i hx
        rw [List.cons_append, ← ih xs r h, hx]
      · exact absurd h (by simp)

/-- Distinct recognized labels disagree at some common index. -/
lemma labelOf_clash : ∀ i j : Fin 5, i ≠ j → listsClash (labelOf i) (labelOf j) := by decide

/-- A line matches at most one of the five labels: a match for one label
forces a non-match for every other. -/
lemma scanPattern_disjoint (i j : Fin 5) (hij : i ≠ j) (l : Line) (v : Int)
    (h : scanPattern (labelOf i) l = some v) : scanPattern (labelOf j) l = none := by
  cases hdj : dropLit (labelOf j) l with
  | none => simp [scanPattern, hdj]
  | some r2 =>
    exfalso
    have hdi : ∃ r1, dropLit (labelOf i) l = some r1 := by
      unfold scanPattern at h
      cases hd : dropLit (labelOf i) l with
      | none => rw [hd] at h; exact absurd h (by simp)
      | some r => exact ⟨r, rfl⟩
    obtain ⟨r1, hdi⟩ := hdi
    have e1 := dropLit_append _ _ _ hdi
    have e2 := dropLit_append _ _ _ hdj
    exact clash_ne_append _ _ (labelOf_clash i j hij) r1 r2 (e1.symm.trans e2)

/-- Effect of one line on the MemAvailable cell. -/
lemma processLine_availableMemoryKb (l : Line) (st : ScanState) :
    (processLine l st).availableMemoryKb =
      (scanPattern memAvailableLabel l).getD st.availableMemoryKb := by
  unfold processLine
  cases h0 : scanPattern memAvailableLabel l with
  | some v => rfl
  | none =>
    cases h1 : scanPattern swapFreeLabel l <;>
    cases h2 : scanPattern hugeTotalLabel l <;>
    cases h3 : scanPattern hugeFreeLabel l <;>
    cases h4 : scanPattern hugeSizeLabel l <;> rfl

/-- Effect of one line on the SwapFree cell. -/
lemma processLine_freeSwapKb (l : Line) (st : ScanState) :
    (processLine l st).freeSwapKb = (scanPattern swapFreeLabel l).getD st.freeSwapKb := by
  unfold processLine
  cases h0 : scanPattern memAvailableLabel l with
  | some v =>
    have h1 : scanPattern swapFreeLabel l = none := scanPattern_disjoint 0 1 (by decide) l v h0
    rw [h1]
    rfl
  | none =>
    cases h1 : scanPattern swapFreeLabel l <;>
    cases h2 : scanPattern hugeTotalLabel l <;>
    cases h3 : scanPattern hugeFreeLabel l <;>
    cases h4 : scanPattern hugeSizeLabel l <;> rfl

/-- Effect of one line on the HugePages_Total local. -/
lemma processLine_hugeTlbTotalPages (l : Line) (st : ScanState) :
    (processLine l st).hugeTlbTotalPages =
      (scanPattern hugeTotalLabel l).getD st.hugeTlbTotalPages := by
  unfold processLine
  cases h0 : scanPattern memAvailableLabel l with
  | some v =>
    have h2 : scanPattern hugeTotalLabel l = none := scanPattern_disjoint 0 2 (by decide) l v h0
    rw [h2]
    rfl
  | none =>
    cases h1 : scanPattern swapFreeLabel l with
    | some v =>
      have h2 : scanPattern hugeTotalLabel l = none := scanPattern_disjoint 1 2 (by decide) l v h1
      rw [h2]
      rfl
    | none =>
      cases h2 : scanPattern hugeTotalLabel l <;>
      cases h3 : scanPattern hugeFreeLabel l <;>
      cases h4 : scanPattern hugeSizeLabel l <;> rfl

/-- Effect of one line on the HugePages_Free local. -/
lemma processLine_hugeTlbFreePages (l : Line) (st : ScanState) :
    (processLine l st).hugeTlbFreePages =
      (scanPattern hugeFreeLabel l).getD st.hugeTlbFreePages := by
  unfold processLine
  cases h0 : scanPattern memAvailableLabel l with
  | some v =>
    have h3 : scanPattern hugeFreeLabel l = none := scanPattern_disjoint 0 3 (by decide) l v h0
    rw [h3]
    rfl
  | none =>
    cases h1 : scanPattern swapFreeLabel l with
    | some v =>
      have h3 : scanPattern hugeFreeLabel l = none := scanPattern_disjoint 1 3 (by decide) l v h1
      rw [h3]
      rfl
    | none =>
      cases h2 : scanPattern hugeTotalLabel l with
      | some v =>
        have h3 : scanPattern hugeFreeLabel l = none := scanPattern_disjoint 2 3 (by decide) l v h2
        rw [h3]
        rfl
      | none =>
        cases h3 : scanPattern hugeFreeLabel l <;>
        cases h4 : scanPattern hugeSizeLabel l <;> rfl

/-- Effect of one line on the Hugepagesize local. -/
lemma processLine_hugeTlbPageSize (l : Line) (st : ScanState) :
    (processLine l st).hugeTlbPageSize =
      (scanPattern hugeSizeLabel l).getD st.hugeTlbPageSize := by
  unfold processLine
  cases h0 : scanPattern memAvailableLabel l with
  | some v =>
    have h4 : scanPattern hugeSizeLabel l = none := scanPattern_disjoint 0 4 (by decide) l v h0
    rw [h4]
    rfl
  | none =>
    cases h1 : scanPattern swapFreeLabel l with
    | some v =>
      have h4 : scanPattern hugeSizeLabel l = none := scanPattern_disjoint 1 4 (by decide) l v h1
      rw [h4]
      rfl
    | none =>
      cases h2 : scanPattern hugeTotalLabel l with
      | some v =>
        have h4 : scanPattern hugeSizeLabel l = none := scanPattern_disjoint 2 4 (by decide) l v h2
        rw [h4]
        rfl
      | none =>
        cases h3 : scanPattern hugeFreeLabel l with
        | some v =>
          have h4 : scanPattern hugeSizeLabel l = none := scanPattern_disjoint 3 4 (by decide) l v h3
          rw [h4]
          rfl
        | none =>
          cases h4 : scanPattern hugeSizeLabel l <;> rfl

/-- A line matching no pattern leaves the state untouched. -/
lemma processLine_of_unrecognized (l : Line) (st : ScanState) (h : unrecognizedLine l) :
    processLine l st = st := by
  have h0 : scanPattern memAvailableLabel l = none := h 0
  have h1 : scanPattern swapFreeLabel l = none := h 1
  have h2 : scanPattern hugeTotalLabel l = none := h 2
  have h3 : scanPattern hugeFreeLabel l = none := h 3
  have h4 : scanPattern hugeSizeLabel l = none := h 4
  unfold processLine
  rw [h0, h1, h2, h3, h4]

/-- Unfolding of the loop on a nonempty source. -/
lemma scanLoop_cons (w : Bool) (l : Line) (ls : List Line) (st : ScanState) :
    scanLoop w (l :: ls) st =
      if stopCond w (processLine l st) then
        (processLine l st, [l], true)
      else
        ((scanLoop w ls (processLine l st)).1,
         l :: (scanLoop w ls (processLine l st)).2.1,
         (scanLoop w ls (processLine l st)).2.2) := rfl

/-- A scan that ended by break computes the same answer on any extension of
the source: the lines after the break point are never looked at. -/
lemma scanLoop_append_stop (w : Bool) :
    ∀ (pre suf : List Line) (st : ScanState), (scanLoop w pre st).2.2 = true →
      scanLoop w (pre ++ suf) st = scanLoop w pre st := by
  intro pre
  induction pre with
  | nil => intro suf st h; exact absurd h (by simp [scanLoop])
  | cons l ls ih =>
    intro suf st h
    rw [scanLoop_cons] at h
    rw [List.cons_append, scanLoop_cons, scanLoop_cons]
    by_cases hs : stopCond w (processLine l st)
    · rw [if_pos hs]
      rw [if_pos hs]
    · rw [if_neg hs] at h
      simp only at h
      rw [if_neg hs, if_neg hs, ih suf (processLine l st) h]

/-- Without a huge-page request, a scan that did not break never has both
mandatory fields resolved at its end (provided they were not resolved at its
start). -/
lemma scanLoop_not_stopped (ls : List Line) :
    ∀ (st : ScanState), ¬ mandatoryResolved st → (scanLoop false ls st).2.2 = false →
      ¬ mandatoryResolved ((scanLoop false ls st).1) := by
  induction ls with
  | nil => intro st h _; exact h
  | cons l ls ih =>
    intro st h hb
    rw [scanLoop_cons] at hb ⊢
    by_cases hs : stopCond false (processLine l st)
    · rw [if_pos hs] at hb
      exact absurd hb (by simp)
    · rw [if_neg hs] at hb ⊢
      simp only at hb ⊢
      have hm : ¬ mandatoryResolved (processLine l st) := fun hmand => hs ⟨hmand, Or.inl rfl⟩
      exact ih (processLine l st) hm hb

/-- One step preserves the invariant "this cell already holds X, or it is
still unset and a line carrying X lies ahead", for a cell whose label either
matches the head line with value X or does not match it at all. -/
lemma cellInvStep (X : Int) (label : List Char) (l : Line) (ls : List Line)
    (hpat : scanPattern label l = some X ∨ scanPattern label l = none)
    (cur next : Int) (hnext : next = (scanPattern label l).getD cur)
    (hinv : cur = X ∨ (cur = -1 ∧ ∃ l' ∈ l :: ls, scanPattern label l' = some X)) :
    next = X ∨ (next = -1 ∧ ∃ l' ∈ ls, scanPattern label l' = some X) := by
  rcases hpat with hm | hn
  · left
    rw [hnext, hm]
    rfl
  · rw [hnext, hn]
    simp only [Option.getD_none]
    rcases hinv with h | ⟨h1, l', hl', hx⟩
    · exact Or.inl h
    · refine Or.inr ⟨h1, ?_⟩
      rcases List.mem_cons.mp hl' with heq | hin
      · rw [heq, hn] at hx
        exact absurd hx (by simp)
      · exact ⟨l', hin, hx⟩

/-- On a source whose every line is a MemAvailable line carrying X, a
SwapFree line carrying Y, or an unrecognized line, the scan ends with the
mandatory cells holding exactly X and Y whenever each occurs somewhere (and
neither value collides with the unset sentinel). -/
lemma scanLoop_mandatory_values (w : Bool) (X Y : Int) :
    ∀ (lines : List Line) (st : ScanState),
      (∀ l ∈ lines, scanPattern memAvailableLabel l = some X ∨
        scanPattern swapFreeLabel l = some Y ∨ unrecognizedLine l) →
      (st.availableMemoryKb = X ∨ (st.availableMemoryKb = -1 ∧
        ∃ l ∈ lines, scanPattern memAvailableLabel l = some X)) →
      (st.freeSwapKb = Y ∨ (st.freeSwapKb = -1 ∧
        ∃ l ∈ lines, scanPattern swapFreeLabel l = some Y)) →
      (scanLoop w lines st).1.availableMemoryKb = X ∧ (scanLoop w lines st).1.freeSwapKb = Y := by
  intro lines
  induction lines with
  | nil =>
    intro st _ hA hS
    refine ⟨?_, ?_⟩
    · rcases hA with h | ⟨_, l, hl, _⟩
      · exact h
      · exact absurd hl (by simp)
    · rcases hS with h | ⟨_, l, hl, _⟩
      · exact h
      · exact absurd hl (by simp)
  | cons l ls ih =>
    intro st hall hA hS
    have hgl := hall l (List.mem_cons_self l ls)
    have hpatA : scanPattern memAvailableLabel l = some X ∨
        scanPattern memAvailableLabel l = none := by
      rcases hgl with hm | hs | hn
      · exact Or.inl hm
      · exact Or.inr (scanPattern_disjoint 1 0 (by decide) l Y hs)
      · exact Or.inr (hn 0)
    have hpatS : scanPattern swapFreeLabel l = some Y ∨
        scanPattern swapFreeLabel l = none := by
      rcases hgl with hm | hs | hn
      · exact Or.inr (scanPattern_disjoint 0 1 (by decide) l X hm)
      · exact Or.inl hs
      · exact Or.inr (hn 1)
    have hA' := cellInvStep X memAvailableLabel l ls hpatA _ _
      (processLine_availableMemoryKb l st) hA
    have hS' := cellInvStep Y swapFreeLabel l ls hpatS _ _
      (processLine_freeSwapKb l st) hS
    rw [scanLoop_cons]
    by_cases hs : stopCond w (processLine l st)
    · rw [if_pos hs]
      obtain ⟨⟨ha, hb⟩, _⟩ := hs
      refine ⟨?_, ?_⟩
      · rcases hA' with h | ⟨h, _⟩
        · exact h
        · exact absurd h ha
      · rcases hS' with h | ⟨h, _⟩
        · exact h
        · exact absurd h hb
    · rw [if_neg hs]
      exact ih (processLine l st) (fun l' hl' => hall l' (List.mem_cons_of_mem l hl')) hA' hS'

/-- One step preserves the invariant "this cell is resolved, or a matching
line lies ahead", provided no line carries the sentinel value -1. -/
lemma cellResolvedStep (label : List Char) (l : Line) (ls : List Line)
    (hval : scanPattern label l ≠ some (-1))
    (cur next : Int) (hnext : next = (scanPattern label l).getD cur)
    (hinv : cur ≠ -1 ∨ ∃ l' ∈ l :: ls, (scanPattern label l').isSome = true) :
    next ≠ -1 ∨ ∃ l' ∈ ls, (scanPattern label l').isSome = true := by
  cases hp : scanPattern label l with
  | some v =>
    left
    rw [hnext, hp]
    intro h
    rw [Option.getD_some] at h
    rw [h] at hp
    exact hval hp
  | none =>
    rw [hnext, hp]
    simp only [Option.getD_none]
    rcases hinv with h | ⟨l', hl', hx⟩
    · exact Or.inl h
    · rcases List.mem_cons.mp hl' with heq | hin
      · rw [heq, hp] at hx
        exact absurd hx (by simp)
      · exact Or.inr ⟨l', hin, hx⟩

/-- If no scanned line carries the sentinel value -1 for a mandatory label,
and each mandatory label matches some line, the scan resolves both mandatory
cells. -/
lemma scanLoop_resolves (w : Bool) :
    ∀ (lines : List Line) (st : ScanState),
      (∀ l ∈ lines, scanPattern memAvailableLabel l ≠ some (-1)) →
      (∀ l ∈ lines, scanPattern swapFreeLabel l ≠ some (-1)) →
      (st.availableMemoryKb ≠ -1 ∨
        ∃ l ∈ lines, (scanPattern memAvailableLabel l).isSome = true) →
      (st.freeSwapKb ≠ -1 ∨ ∃ l ∈ lines, (scanPattern swapFreeLabel l).isSome = true) →
      mandatoryResolved ((scanLoop w lines st).1) := by
  intro lines
  induction lines with
  | nil =>
    intro st _ _ hA hS
    refine ⟨?_, ?_⟩
    · rcases hA with h | ⟨l, hl, _⟩
      · exact h
      · exact absurd hl (by simp)
    · rcases hS with h | ⟨l, hl, _⟩
      · exact h
      · exact absurd hl (by simp)
  | cons l ls ih =>
    intro st hvA hvS hA hS
    have hA' := cellResolvedStep memAvailableLabel l ls (hvA l (List.mem_cons_self l ls)) _ _
      (processLine_availableMemoryKb l st) hA
    have hS' := cellResolvedStep swapFreeLabel l ls (hvS l (List.mem_cons_self l ls)) _ _
      (processLine_freeSwapKb l st) hS
    rw [scanLoop_cons]
    by_cases hs : stopCond w (processLine l st)
    · rw [if_pos hs]
      exact hs.1
    · rw [if_neg hs]
      exact ih (processLine l st)
        (fun l' hl' => hvA l' (List.mem_cons_of_mem l hl'))
        (fun l' hl' => hvS l' (List.mem_cons_of_mem l hl')) hA' hS'

/-- If no line of the source matches MemAvailable, the cell keeps its initial
content to the end of the scan. -/
lemma scanLoop_avail_of_none (w : Bool) :
    ∀ (lines : List Line) (st : ScanState),
      (∀ l ∈ lines, scanPattern memAvailableLabel l = none) →
      (scanLoop w lines st).1.availableMemoryKb = st.availableMemoryKb := by
  intro lines
  induction lines with
  | nil => intro st _; rfl
  | cons l ls ih =>
    intro st hall
    have hstep : (processLine l st).availableMemoryKb = st.availableMemoryKb := by
      rw [processLine_availableMemoryKb, hall l (List.mem_cons_self l ls)]
      rfl
    rw [scanLoop_cons]
    by_cases hs : stopCond w (processLine l st)
    · rw [if_pos hs]
      exact hstep
    · rw [if_neg hs]
      rw [ih (processLine l st) (fun l' hl' => hall l' (List.mem_cons_of_mem l hl')), hstep]

/-- If no line of the source matches SwapFree, the cell keeps its initial
content to the end of the scan. -/
lemma scanLoop_swap_of_none (w : Bool) :
    ∀ (lines : List Line) (st : ScanState),
      (∀ l ∈ lines, scanPattern swapFreeLabel l = none) →
      (scanLoop w lines st).1.freeSwapKb = st.freeSwapKb := by
  intro lines
  induction lines with
  | nil => intro st _; rfl
  | cons l ls ih =>
    intro st hall
    have hstep : (processLine l st).freeSwapKb = st.freeSwapKb := by
      rw [processLine_freeSwapKb, hall l (List.mem_cons_self l ls)]
      rfl
    rw [scanLoop_cons]
    by_cases hs : stopCond w (processLine l st)
    · rw [if_pos hs]
      exact hstep
    · rw [if_neg hs]
      rw [ih (processLine l st) (fun l' hl' => hall l' (List.mem_cons_of_mem l hl')), hstep]

/-- Defaulted last element of a cons: the head becomes the new default. -/
lemma getLast?_getD : ∀ (xs : List Int) (v d : Int),
    ((v :: xs).getLast?).getD d = (xs.getLast?).getD v := by
  intro xs
  induction xs with
  | nil => intro v d; rfl
  | cons y ys ih =>
    intro v d
    rw [List.getLast?_cons_cons, ih y d, ih y v]

/-- Head step of the last-matching-value function. -/
lemma lastVal_cons (label : List Char) (l : Line) (ls : List Line) (d : Int) :
    lastVal label (l :: ls) d = lastVal label ls ((scanPattern label l).getD d) := by
  cases hp : scanPattern label l with
  | none => simp [lastVal, List.filterMap_cons, hp]
  | some v => simp [lastVal, List.filterMap_cons, hp, getLast?_getD]

/-- Each cell of the final scan state holds the value of the last consumed
line matching its label, or its initial content when none does. -/
lemma scanLoop_lastVal (w : Bool) :
    ∀ (lines : List Line) (st : ScanState),
      (scanLoop w lines st).1.availableMemoryKb =
        lastVal memAvailableLabel (scanLoop w lines st).2.1 st.availableMemoryKb ∧
      (scanLoop w lines st).1.freeSwapKb =
        lastVal swapFreeLabel (scanLoop w lines st).2.1 st.freeSwapKb ∧
      (scanLoop w lines st).1.hugeTlbTotalPages =
        lastVal hugeTotalLabel (scanLoop w lines st).2.1 st.hugeTlbTotalPages ∧
      (scanLoop w lines st).1.hugeTlbFreePages =
        lastVal hugeFreeLabel (scanLoop w lines st).2.1 st.hugeTlbFreePages ∧
      (scanLoop w lines st).1.hugeTlbPageSize =
        lastVal hugeSizeLabel (scanLoop w lines st).2.1 st.hugeTlbPageSize := by
  intro lines
  induction lines with
  | nil => intro st; exact ⟨rfl, rfl, rfl, rfl, rfl⟩
  | cons l ls ih =>
    intro st
    rw [scanLoop_cons]
    by_cases hs : stopCond w (processLine l st)
    · rw [if_pos hs]
      refine ⟨?_, ?_, ?_, ?_, ?_⟩
      · rw [lastVal_cons, processLine_availableMemoryKb]
        rfl
      · rw [lastVal_cons, processLine_freeSwapKb]
        rfl
      · rw [lastVal_cons, processLine_hugeTlbTotalPages]
        rfl
      · rw [lastVal_cons, processLine_hugeTlbFreePages]
        rfl
      · rw [lastVal_cons, processLine_hugeTlbPageSize]
        rfl
    · rw [if_neg hs]
      obtain ⟨e1, e2, e3, e4, e5⟩ := ih (processLine l st)
      refine ⟨?_, ?_, ?_, ?_, ?_⟩
      · rw [lastVal_cons, ← processLine_availableMemoryKb l st]
        exact e1
      · rw [lastVal_cons, ← processLine_freeSwapKb l st]
        exact e2
      · rw [lastVal_cons, ← processLine_hugeTlbTotalPages l st]
        exact e3
      · rw [lastVal_cons, ← processLine_hugeTlbFreePages l st]
        exact e4
      · rw [lastVal_cons, ← processLine_hugeTlbPageSize l st]
        exact e5

/-- C1: for every source whose lines comprise a well-formed MemAvailable
line carrying X, a well-formed SwapFree line carrying Y (X, Y ≥ 0), and
arbitrary unrecognized lines, in any order, readMemoryInfo succeeds and the
returned report carries exactly X and Y in the mandatory fields. -/
theorem claim1_wellformed_success (w : Bool) (X Y : Int) (lines : List Line)
    (hX : 0 ≤ X) (hY : 0 ≤ Y)
    (hmem : ∃ l ∈ lines, scanPattern memAvailableLabel l = some X)
    (hswap : ∃ l ∈ lines, scanPattern swapFreeLabel l = some Y)
    (hall : ∀ l ∈ lines, scanPattern memAvailableLabel l = some X ∨
      scanPattern swapFreeLabel l = some Y ∨ unrecognizedLine l) :
    ∃ r : MemoryReport, readMemoryInfo w true lines = Except.ok r ∧
      r.availableKb = X ∧ r.freeSwapKb = Y := by
  obtain ⟨hA, hS⟩ := scanLoop_mandatory_values w X Y lines initialState hall
    (Or.inr ⟨rfl, hmem⟩) (Or.inr ⟨rfl, hswap⟩)
  have hnot : ¬ ((scanLoop w lines initialState).1.availableMemoryKb = -1 ∨
      (scanLoop w lines initialState).1.freeSwapKb = -1) := by
    rw [hA, hS]
    rintro (h | h) <;> omega
  refine ⟨⟨(scanLoop w lines initialState).1.availableMemoryKb,
    (scanLoop w lines initialState).1.freeSwapKb,
    hugePagesValue w ((scanLoop w lines initialState).1)⟩, ?_, hA, hS⟩
  unfold readMemoryInfo
  rw [if_neg (by simp), if_neg hnot]

/-- Witness for C1 at a concrete well-formed source with the lines out of
order and an unrecognized line interspersed. -/
theorem claim1_witness :
    ∃ r : MemoryReport, readMemoryInfo false true c1lines = Except.ok r ∧
      r.availableKb = 5 ∧ r.freeSwapKb = 7 :=
  claim1_wellformed_success false 5 7 c1lines (by decide) (by decide)
    (by decide) (by decide) (by decide)

/-- C2 as stated fails on the code: a source carrying a negative
MemAvailable value yields a successful report whose mandatory field is
negative, because sscanf's %ld accepts a sign and only the exact value -1 is
treated as unset. -/
theorem claim2_counterexample :
    readMemoryInfo false true c2lines = Except.ok ⟨-5, 3, 0⟩ ∧ (-5 : Int) < 0 :=
  ⟨rfl, by decide⟩

/-- C2 amended: after a call either failure is reported, or success is
reported with both mandatory fields resolved away from the unset sentinel;
there is no partial-success state. Non-negativity, however, is not
guaranteed for sources carrying negative values. -/
theorem claim2_no_partial_success (w openOk : Bool) (lines : List Line) (r : MemoryReport)
    (h : readMemoryInfo w openOk lines = Except.ok r) :
    r.availableKb ≠ -1 ∧ r.freeSwapKb ≠ -1 := by
  unfold readMemoryInfo at h
  by_cases ho : openOk = false
  · rw [if_pos ho] at h
    exact absurd h (by simp)
  · rw [if_neg ho] at h
    by_cases hv : (scanLoop w lines initialState).1.availableMemoryKb = -1 ∨
        (scanLoop w lines initialState).1.freeSwapKb = -1
    · rw [if_pos hv] at h
      exact absurd h (by simp)
    · rw [if_neg hv] at h
      push_neg at hv
      injection h with h'
      rw [← h']
      exact hv

/-- Witness for the amended C2 at a concrete successful call. -/
theorem claim2_witness :
    (⟨5, 7, 0⟩ : MemoryReport).availableKb ≠ -1 ∧
    (⟨5, 7, 0⟩ : MemoryReport).freeSwapKb ≠ -1 :=
  claim2_no_partial_success false true c4okLines ⟨5, 7, 0⟩ rfl

/-- C3: on every successful call with huge pages requested, the reported
hugePagesFreeKb is freePages times pageSizeKb when all three huge-page
fields were resolved during the scan with totalPages positive, and 0 in
every other case. -/
theorem claim3_huge_pages_formula (openOk : Bool) (lines : List Line) (r : MemoryReport)
    (h : readMemoryInfo true openOk lines = Except.ok r) :
    r.hugePagesFreeKb = hugeFormula ((scanLoop true lines initialState).1) := by
  unfold readMemoryInfo at h
  by_cases ho : openOk = false
  · rw [if_pos ho] at h
    exact absurd h (by simp)
  · rw [if_neg ho] at h
    by_cases hv : (scanLoop true lines initialState).1.availableMemoryKb = -1 ∨
        (scanLoop true lines initialState).1.freeSwapKb = -1
    · rw [if_pos hv] at h
      exact absurd h (by simp)
    · rw [if_neg hv] at h
      injection h with h'
      rw [← h']
      show hugePagesValue true ((scanLoop true lines initialState).1) =
        hugeFormula ((scanLoop true lines initialState).1)
      unfold hugePagesValue hugeFormula
      refine if_congr ?_ rfl rfl
      constructor
      · rintro ⟨_, h1, h2, h3⟩
        exact ⟨by omega, h2, h3, h1⟩
      · rintro ⟨h0, h2, h3, h1⟩
        exact ⟨rfl, h1, h2, h3⟩

/-- Witness for C3 at a concrete source resolving all three huge-page
fields: 4 pages free of 2048 kB each gives 8192 kB. -/
theorem claim3_witness :
    (⟨5, 7, 8192⟩ : MemoryReport).hugePagesFreeKb =
      hugeFormula ((scanLoop true c3lines initialState).1) :=
  claim3_huge_pages_formula true c3lines ⟨5, 7, 8192⟩ rfl

/-- C4 as stated fails on the code, at two points. First, a source holding a
resolvable MemAvailable entry (value 5) and a resolvable SwapFree entry
(value 7) can still fail, because a later MemAvailable line carrying -1
rewrites the field back to the unset sentinel. Second, the presence of the
huge-page lines can decide failure: with huge pages requested, inserting the
three huge-page lines before a sentinel-carrying line turns the failing call
into a success, because the scan then breaks before reaching that line. -/
theorem claim4_counterexample :
    readMemoryInfo false true c4lines = Except.error MemError.RequiredFieldMissing ∧
    scanPattern memAvailableLabel (toLine "MemAvailable: 5 kB") = some 5 ∧
    scanPattern swapFreeLabel (toLine "SwapFree: 7 kB") = some 7 ∧
    readMemoryInfo true true c4linesNoHuge = Except.error MemError.RequiredFieldMissing ∧
    readMemoryInfo true true c4linesHuge = Except.ok ⟨5, 7, 2048⟩ :=
  ⟨rfl, by decide, by decide, rfl, rfl⟩

/-- C4 amended: for sources in which no MemAvailable or SwapFree line
carries the sentinel value -1, the call on an opened source fails with
RequiredFieldMissing exactly when the source has no line matching
MemAvailable or no line matching SwapFree; the right-hand side does not
involve the huge-page request or the huge-page lines, so under the same
proviso they never affect whether the call fails. -/
theorem claim4_required_field_missing_iff (w : Bool) (lines : List Line)
    (hvA : ∀ l ∈ lines, scanPattern memAvailableLabel l ≠ some (-1))
    (hvS : ∀ l ∈ lines, scanPattern swapFreeLabel l ≠ some (-1)) :
    readMemoryInfo w true lines = Except.error MemError.RequiredFieldMissing ↔
      (∀ l ∈ lines, scanPattern memAvailableLabel l = none) ∨
      (∀ l ∈ lines, scanPattern swapFreeLabel l = none) := by
  constructor
  · intro herr
    by_contra hcon
    push_neg at hcon
    obtain ⟨⟨l1, hl1, hm1⟩, ⟨l2, hl2, hm2⟩⟩ := hcon
    obtain ⟨ha, hb⟩ := scanLoop_resolves w lines initialState hvA hvS
      (Or.inr ⟨l1, hl1, Option.isSome_iff_ne_none.mpr hm1⟩)
      (Or.inr ⟨l2, hl2, Option.isSome_iff_ne_none.mpr hm2⟩)
    unfold readMemoryInfo at herr
    rw [if_neg (by simp), if_neg (fun h => h.elim ha hb)] at herr
    exact absurd herr (by simp)
  · intro hcase
    unfold readMemoryInfo
    rw [if_neg (by simp)]
    rcases hcase with hnone | hnone
    · rw [if_pos (Or.inl (by rw [scanLoop_avail_of_none w lines initialState hnone]; rfl))]
    · rw [if_pos (Or.inr (by rw [scanLoop_swap_of_none w lines initialState hnone]; rfl))]

/-- Witness for the amended C4 at a concrete sentinel-free source holding
both mandatory entries. -/
theorem claim4_witness :
    readMemoryInfo false true c4okLines = Except.error MemError.RequiredFieldMissing ↔
      (∀ l ∈ c4okLines, scanPattern memAvailableLabel l = none) ∨
      (∀ l ∈ c4okLines, scanPattern swapFreeLabel l = none) :=
  claim4_required_field_missing_iff false c4okLines (by decide) (by decide)

/-- C5: a scan that ended by break is insensitive to every line after the
break point; in particular, without a huge-page request, once the prefix of
the source has resolved both mandatory fields the whole call computes the
same result as on the prefix alone, whatever (even malformed huge-page)
lines follow. -/
theorem claim5_early_exit :
    (∀ (w : Bool) (pre suf : List Line) (st : ScanState),
      (scanLoop w pre st).2.2 = true → scanLoop w (pre ++ suf) st = scanLoop w pre st) ∧
    (∀ pre suf : List Line, mandatoryResolved ((scanLoop false pre initialState).1) →
      readMemoryInfo false true (pre ++ suf) = readMemoryInfo false true pre) := by
  refine ⟨fun w => scanLoop_append_stop w, ?_⟩
  intro pre suf hres
  have hstop : (scanLoop false pre initialState).2.2 = true := by
    by_contra hb
    have hb' : (scanLoop false pre initialState).2.2 = false := by
      cases hcase : (scanLoop false pre initialState).2.2
      · rfl
      · exact absurd hcase hb
    exact scanLoop_not_stopped pre initialState (fun hm => hm.1 rfl) hb' hres
  have heq := scanLoop_append_stop false pre suf initialState hstop
  unfold readMemoryInfo
  rw [heq]

/-- Witness for C5: the early exit on a concrete two-line prefix makes the
call ignore a malformed huge-page line appended after it. -/
theorem claim5_witness :
    readMemoryInfo false true (c5pre ++ c5suf) = readMemoryInfo false true c5pre :=
  claim5_early_exit.2 c5pre c5suf (by decide)

/-- C6: a call that reports failure yields no report: at the contract level
a failing outcome never equals a successful one, and at the pointer level a
returning call with code 1 left at least one mandatory cell at the unset
sentinel, or wrote no cell at all — never a fully valid pair of mandatory
values. -/
theorem claim6_failure_no_report :
    (∀ (w openOk : Bool) (lines : List Line) (e : MemError) (r : MemoryReport),
      readMemoryInfo w openOk lines = Except.error e →
      readMemoryInfo w openOk lines ≠ Except.ok r) ∧
    (∀ (availPtr swapPtr hugePtr : Bool) (initAvail initSwap initHuge : Int)
        (openOk : Bool) (lines : List Line),
      (getAvailableMemoryC availPtr swapPtr hugePtr initAvail initSwap initHuge
          openOk lines).ret = 1 →
      (getAvailableMemoryC availPtr swapPtr hugePtr initAvail initSwap initHuge
          openOk lines).availCell = some (-1) ∨
      (getAvailableMemoryC availPtr swapPtr hugePtr initAvail initSwap initHuge
          openOk lines).swapCell = some (-1) ∨
      ((getAvailableMemoryC availPtr swapPtr hugePtr initAvail initSwap initHuge
          openOk lines).availCell = cellVal availPtr initAvail ∧
       (getAvailableMemoryC availPtr swapPtr hugePtr initAvail initSwap initHuge
          openOk lines).swapCell = cellVal swapPtr initSwap)) := by
  constructor
  · intro w openOk lines e r h
    rw [h]
    simp
  · intro availPtr swapPtr hugePtr initAvail initSwap initHuge openOk lines
    unfold getAvailableMemoryC
    by_cases h1 : availPtr = false ∨ swapPtr = false
    · rw [if_pos h1]
      exact fun _ => Or.inr (Or.inr ⟨rfl, rfl⟩)
    · rw [if_neg h1]
      by_cases h2 : openOk = false
      · rw [if_pos h2]
        exact fun _ => Or.inr (Or.inr ⟨rfl, rfl⟩)
      · rw [if_neg h2]
        by_cases h3 : (scanLoop hugePtr lines initialState).1.availableMemoryKb = -1 ∨
            (scanLoop hugePtr lines initialState).1.freeSwapKb = -1
        · rw [if_pos h3]
          intro _
          rcases h3 with h | h
          · exact Or.inl (by rw [h])
          · exact Or.inr (Or.inl (by rw [h]))
        · rw [if_neg h3]
          intro hret
          simp at hret

/-- Witness for C6: the two failure shapes at concrete calls — an unopenable
source at the contract level, an empty source at the pointer level. -/
theorem claim6_witness :
    readMemoryInfo false false [] ≠ Except.ok ⟨0, 0, 0⟩ ∧
    ((getAvailableMemoryC true true false 0 0 0 true []).availCell = some (-1) ∨
     (getAvailableMemoryC true true false 0 0 0 true []).swapCell = some (-1) ∨
     ((getAvailableMemoryC true true false 0 0 0 true []).availCell = cellVal true 0 ∧
      (getAvailableMemoryC true true false 0 0 0 true []).swapCell = cellVal true 0)) :=
  ⟨claim6_failure_no_report.1 false false [] MemError.SourceUnavailable ⟨0, 0, 0⟩ rfl,
   claim6_failure_no_report.2 true true false 0 0 0 true [] rfl⟩

/-- C7: a line matches at most one of the five label patterns; a line
matching none leaves every field unchanged; and a line whose label matches
but whose value portion is not a well-formed integer is treated exactly like
a non-matching line. -/
theorem claim7_line_matching :
    (∀ (l : Line) (i j : Fin 5), (scanPattern (labelOf i) l).isSome = true →
      (scanPattern (labelOf j) l).isSome = true → i = j) ∧
    (∀ (l : Line) (st : ScanState), unrecognizedLine l → processLine l st = st) ∧
    (∀ (l : Line) (st : ScanState) (i : Fin 5) (rest : List Char),
      dropLit (labelOf i) l = some rest → parseLong rest = none → processLine l st = st) := by
  refine ⟨?_, ?_, ?_⟩
  · intro l i j hi hj
    by_contra hij
    obtain ⟨v, hv⟩ := Option.isSome_iff_exists.mp hi
    have hnone := scanPattern_disjoint i j hij l v hv
    rw [hnone] at hj
    exact absurd hj (by simp)
  · exact fun l st h => processLine_of_unrecognized l st h
  · intro l st i rest hdrop hparse
    apply processLine_of_unrecognized
    intro j
    by_cases hji : j = i
    · rw [hji]
      unfold scanPattern
      rw [hdrop]
      exact hparse
    · cases hdj : dropLit (labelOf j) l with
      | none => simp [scanPattern, hdj]
      | some r2 =>
        exfalso
        have e1 := dropLit_append _ _ _ hdrop
        have e2 := dropLit_append _ _ _ hdj
        exact clash_ne_append _ _ (labelOf_clash i j (fun h => hji h.symm)) rest r2
          (e1.symm.trans e2)

/-- Witness for C7: a MemAvailable line whose value is not an integer leaves
the state untouched. -/
theorem claim7_witness :
    processLine (toLine "MemAvailable: abc kB") initialState = initialState :=
  claim7_line_matching.2.2 (toLine "MemAvailable: abc kB") initialState 0
    (toLine " abc kB") (by decide) (by decide)

/-- C8: when the source cannot be opened the call fails with
SourceUnavailable whatever the source content would have been, and at the
pointer level the call consumes no line and never opens the source. -/
theorem claim8_source_unavailable :
    (∀ (w : Bool) (lines : List Line),
      readMemoryInfo w false lines = Except.error MemError.SourceUnavailable) ∧
    (∀ (availPtr swapPtr hugePtr : Bool) (initAvail initSwap initHuge : Int)
        (lines : List Line),
      (getAvailableMemoryC availPtr swapPtr hugePtr initAvail initSwap initHuge
          false lines).consumed = [] ∧
      (getAvailableMemoryC availPtr swapPtr hugePtr initAvail initSwap initHuge
          false lines).opened = false) := by
  refine ⟨fun w lines => rfl, ?_⟩
  intro availPtr swapPtr hugePtr initAvail initSwap initHuge lines
  unfold getAvailableMemoryC
  by_cases h1 : availPtr = false ∨ swapPtr = false
  · rw [if_pos h1]
    exact ⟨rfl, rfl⟩
  · rw [if_neg h1, if_pos rfl]
    exact ⟨rfl, rfl⟩

/-- C9: with a null mandatory output pointer the call returns 1 at once: the
source is not opened, no line is consumed, and every cell keeps its prior
content. -/
theorem claim9_null_pointer_guard (availPtr swapPtr hugePtr : Bool)
    (initAvail initSwap initHuge : Int) (openOk : Bool) (lines : List Line)
    (h : availPtr = false ∨ swapPtr = false) :
    getAvailableMemoryC availPtr swapPtr hugePtr initAvail initSwap initHuge openOk lines =
      { ret := 1, availCell := cellVal availPtr initAvail,
        swapCell := cellVal swapPtr initSwap, hugeCell := cellVal hugePtr initHuge,
        opened := false, consumed := [] } := by
  unfold getAvailableMemoryC
  rw [if_pos h]

/-- Witness for C9 at a concrete call with the first pointer null. -/
theorem claim9_witness :
    getAvailableMemoryC false true true 11 22 33 true [toLine "MemAvailable: 5 kB"] =
      { ret := 1, availCell := cellVal false 11, swapCell := cellVal true 22,
        hugeCell := cellVal true 33, opened := false, consumed := [] } :=
  claim9_null_pointer_guard false true true 11 22 33 true
    [toLine "MemAvailable: 5 kB"] (Or.inl rfl)

/-- C10: within the consumed part of the source, each later matching line
overwrites the earlier value, so every field of the final scan state is the
value of the last consumed line matching its label (or the sentinel -1 when
none does). -/
theorem claim10_last_match_wins (w : Bool) (lines : List Line) :
    (scanLoop w lines initialState).1.availableMemoryKb =
      lastVal memAvailableLabel (scanLoop w lines initialState).2.1 (-1) ∧
    (scanLoop w lines initialState).1.freeSwapKb =
      lastVal swapFreeLabel (scanLoop w lines initialState).2.1 (-1) ∧
    (scanLoop w lines initialState).1.hugeTlbTotalPages =
      lastVal hugeTotalLabel (scanLoop w lines initialState).2.1 (-1) ∧
    (scanLoop w lines initialState).1.hugeTlbFreePages =
      lastVal hugeFreeLabel (scanLoop w lines initialState).2.1 (-1) ∧
    (scanLoop w lines initialState).1.hugeTlbPageSize =
      lastVal hugeSizeLabel (scanLoop w lines initialState).2.1 (-1) :=
  scanLoop_lastVal w lines initialState

end MemQuery
